import Mathlib

/-!
# Book catalogue handlers

A shallow embedding of the request handlers of the book catalogue
(`api/books/get`, `api/books/post`, `api/books/put`, `api/books/delete` and
their copies in `cmd/main.go`) together with the collection they talk to.

* Go strings are Lean strings, Go `int` is `Int` (the handlers do no
  arithmetic on it), a Go `error` is its message.
* A handler that ends in `c.JSON(status, body)` or `c.NoContent(status)` is a
  function to the `Response` it writes.
* The collection is passed explicitly: every store call takes the state of the
  collection and gives the next one. A store call can fail for reasons outside
  the program (network, server); that choice is the `fault` argument.
-/

namespace Books

/-! ## Values of the driver and of the standard library -/

/-- Go `error`, identified by its message. -/
abbrev Error := String

deriving instance DecidableEq for Except

/-- The error `primitive.ErrInvalidHex`. -/
def ErrInvalidHex : Error := "the provided hex string is not a valid ObjectID"

/-- The error `hex.ErrLength`. -/
def ErrLength : Error := "encoding/hex: odd length hex string"

/-- The error `hex.InvalidByteError`. -/
def InvalidByteError (c : Char) : Error := "encoding/hex: invalid byte: " ++ c.toString

/-- The type `primitive.ObjectID`, an array of twelve bytes. -/
structure ObjectID where
  bytes : List (Fin 256)
  size : bytes.length = 12
deriving DecidableEq, Repr

/-- The value `primitive.NilObjectID`, twelve zero bytes. -/
def NilObjectID : ObjectID := ⟨List.replicate 12 0, by simp⟩

/-- The method `ObjectID.IsZero`: `id == NilObjectID`. -/
def ObjectID.IsZero (id : ObjectID) : Bool := id == NilObjectID

/-- The digits of `hex.EncodeToString`. -/
def hextable : List Char := "0123456789abcdef".data

/-- The two digits `hex.Encode` writes for one byte. -/
def encodeByte (b : Fin 256) : List Char :=
  [hextable.getD (b.val / 16) '0', hextable.getD (b.val % 16) '0']

/-- The method `ObjectID.Hex`: the 24 lowercase hexadecimal digits of the bytes. -/
def ObjectID.Hex (id : ObjectID) : String := String.mk (id.bytes.flatMap encodeByte)

/-- The helper `fromHexChar` of `encoding/hex`: the value of one digit, of either
case. -/
def fromHexChar (c : Char) : Option (Fin 16) :=
  let n := c.toNat
  if h : 48 ≤ n ∧ n ≤ 57 then some ⟨n - 48, by omega⟩
  else if h : 97 ≤ n ∧ n ≤ 102 then some ⟨n - 97 + 10, by omega⟩
  else if h : 65 ≤ n ∧ n ≤ 70 then some ⟨n - 65 + 10, by omega⟩
  else none

/-- The function `hex.Decode`, over the characters of the source string: digits
are read in pairs, the first character that is no digit is reported, and a
leftover single digit is `ErrLength`. A character outside ASCII stands for
bytes none of which is a digit, so it is rejected like them. -/
def hexDecode : List Char → Except Error (List (Fin 256))
  | [] => .ok []
  | [p] =>
    match fromHexChar p with
    | none => .error (InvalidByteError p)
    | some _ => .error ErrLength
  | p :: q :: rest =>
    match fromHexChar p with
    | none => .error (InvalidByteError p)
    | some a =>
      match fromHexChar q with
      | none => .error (InvalidByteError q)
      | some b =>
        match hexDecode rest with
        | .error e => .error e
        | .ok l => .ok (⟨a.val * 16 + b.val, by have := a.isLt; have := b.isLt; omega⟩ :: l)

/-- The function `primitive.ObjectIDFromHex`: the string must be 24 bytes long
(`len(s) != 24` counts bytes) and decode as hexadecimal. The last branch
cannot be taken: 24 digits decode to 12 bytes. -/
def ObjectIDFromHex (s : String) : Except Error ObjectID :=
  if s.utf8ByteSize ≠ 24 then .error ErrInvalidHex
  else
    match hexDecode s.data with
    | .error e => .error e
    | .ok l => if h : l.length = 12 then .ok ⟨l, h⟩ else .error ErrInvalidHex

/-- A value stored under a key of a `bson.M`. -/
inductive Value where
  | str (s : String)
  | int (n : Int)
  | oid (id : ObjectID)
deriving DecidableEq, Repr

/-- The type `bson.M`, a Go map from keys to values: an association list that
holds each key at most once. -/
abbrev M := List (String × Value)

/-- The assignment `m[k] = v` of a Go map: the value of an existing key is
replaced, a new key is added. -/
def M.set (m : M) (k : String) (v : Value) : M :=
  if m.any (fun e => e.1 == k) then m.map (fun e => if e.1 == k then (k, v) else e)
  else m ++ [(k, v)]

/-- The lookup `m[k]` of a Go map. -/
def M.get (m : M) (k : String) : Option Value := m.lookup k

/-! ## The record model -/

/-- The struct `BookStore`, the stored shape of a book. -/
structure BookStore where
  ID : ObjectID
  BookName : String
  BookAuthor : String
  BookISBN : String
  BookPages : Int
  BookYear : Int
deriving DecidableEq, Repr

/-- The struct `BookResponse`, the shape of a book in a listing. -/
structure BookResponse where
  ID : String
  Name : String
  Author : String
  Pages : Int
  Year : Int
  ISBN : String
deriving DecidableEq, Repr

/-- The struct `BookRequest`, the body of a create request. -/
structure BookRequest where
  Name : String
  Author : String
  Pages : Int
  Year : Int
  ISBN : String
deriving DecidableEq, Repr

/-! ## The collection

The database is not part of the repository. The collection is modelled by the
`BookStore` values its documents decode to, in the order the cursor yields
them, and its operations follow the store contract of the specification
(section 4.1). The driver stores a struct field that has no `bson` tag under
its lowercased name and its struct decoder falls back to the lowercased key,
so a `$set` under the Go name of a field is read back into that field; the
model keeps the decoded view only. `calls` records the calls that reached the
store. -/

/-- One call on the collection. -/
inductive Call where
  | Find
  | InsertOne (doc : BookStore)
  | UpdateOne (id : ObjectID) (fields : M)
  | DeleteOne (id : ObjectID)
deriving DecidableEq, Repr

/-- The state of the collection behind a `*mongo.Collection`. -/
structure Collection where
  docs : List BookStore
  calls : List Call
deriving DecidableEq, Repr

/-- The cursor a successful `Find` returns: the documents it yields, each with
the outcome of `cursor.Decode` into a `BookStore`, and the value of
`cursor.Err()` once `cursor.Next` has returned false. -/
structure Cursor where
  batch : List (Except Error BookStore)
  err : Option Error

/-- The collection with one more call on record. -/
def Collection.record (coll : Collection) (c : Call) : Collection :=
  { coll with calls := coll.calls ++ [c] }

/-- Modelled from the spec: the store operation `find_all`, which the
repository reaches as `coll.Find(ctx, bson.D{})` of the database driver. It
fails with a store error on connection or query failure and otherwise yields
every record, an empty sequence for an empty collection. -/
def Collection.Find (coll : Collection) (fault : Option Error) :
    Except Error Cursor × Collection :=
  match fault with
  | some e => (.error e, coll.record .Find)
  | none => (.ok ⟨coll.docs.map .ok, none⟩, coll.record .Find)

/-- The error of a write that repeats an identifier. -/
def ErrDuplicateKey : Error := "E11000 duplicate key error"

/-- The error of an update that would change an identifier. -/
def ErrImmutableField : Error := "Performing an update on the path _id would modify the immutable field _id"

/-- Modelled from the spec: the store operation `insert_one`, which the
repository reaches as `coll.InsertOne(ctx, book)`. The record's identifier is
left out when it is the zero identifier (`bson:"_id,omitempty"`) and the store
side then assigns `newID`; identifiers stay unique, so a repeated one is a
write failure. The record is added after the existing ones. -/
def Collection.InsertOne (coll : Collection) (fault : Option Error) (newID : ObjectID)
    (doc : BookStore) : Except Error ObjectID × Collection :=
  let coll1 := coll.record (.InsertOne doc)
  match fault with
  | some e => (.error e, coll1)
  | none =>
    let id := if doc.ID.IsZero then newID else doc.ID
    if coll.docs.any (fun b => b.ID == id) then (.error ErrDuplicateKey, coll1)
    else (.ok id, { coll1 with docs := coll.docs ++ [{ doc with ID := id }] })

/-- The replacement of one named field of a record by `$set`. The keys are the
names of the struct fields, which is how `updateBookRequest` spells them. A
key that names no field of the struct, or a value of another kind than the
field, does not show in the decoded record. -/
def setField (b : BookStore) (k : String) (v : Value) : BookStore :=
  match k, v with
  | "BookName", .str s => { b with BookName := s }
  | "BookAuthor", .str s => { b with BookAuthor := s }
  | "BookISBN", .str s => { b with BookISBN := s }
  | "BookPages", .int n => { b with BookPages := n }
  | "BookYear", .int n => { b with BookYear := n }
  | _, _ => b

/-- The replacement of every field a field set names. -/
def applySet (b : BookStore) (fields : M) : BookStore :=
  fields.foldl (fun acc e => setField acc e.1 e.2) b

/-- The list with `f` applied to its first record of identifier `id`. -/
def updateFirst (id : ObjectID) (f : BookStore → BookStore) : List BookStore → List BookStore
  | [] => []
  | b :: rest => if b.ID = id then f b :: rest else b :: updateFirst id f rest

/-- The list without its first record of identifier `id`. -/
def deleteFirst (id : ObjectID) : List BookStore → List BookStore
  | [] => []
  | b :: rest => if b.ID = id then rest else b :: deleteFirst id rest

/-- Modelled from the spec: the store operation `update_one(identifier,
field_set)`, which the repository reaches as `coll.UpdateOne(ctx,
bson.M{"_id": id}, bson.M{"$set": fields})`. It replaces only the named fields
of the first record with that identifier and returns the matched count, 0
when no record has the identifier (not itself an error). The identifier is
immutable: a field set that gives the matched record another one is a write
failure. A failed call changes no record; whether the server accepts an empty
field set is part of `fault`. -/
def Collection.UpdateOne (coll : Collection) (fault : Option Error) (id : ObjectID)
    (fields : M) : Except Error Nat × Collection :=
  let coll1 := coll.record (.UpdateOne id fields)
  match fault with
  | some e => (.error e, coll1)
  | none =>
    if coll.docs.any (fun b => b.ID == id) then
      if fields.any (fun e => e.1 == "_id" && e.2 != .oid id) then (.error ErrImmutableField, coll1)
      else (.ok 1, { coll1 with docs := updateFirst id (fun b => applySet b fields) coll.docs })
    else (.ok 0, coll1)

/-- Modelled from the spec: the store operation `delete_one(identifier)`, which
the repository reaches as `coll.DeleteOne(ctx, bson.M{"_id": objID})`. It
removes the first record with that identifier and returns the deleted count, 0
when no record has the identifier. A failed call removes nothing. -/
def Collection.DeleteOne (coll : Collection) (fault : Option Error) (id : ObjectID) :
    Except Error Nat × Collection :=
  let coll1 := coll.record (.DeleteOne id)
  match fault with
  | some e => (.error e, coll1)
  | none =>
    if coll.docs.any (fun b => b.ID == id) then
      (.ok 1, { coll1 with docs := deleteFirst id coll.docs })
    else (.ok 0, coll1)

/-! ## Responses -/

/-- The body a handler writes. -/
inductive Body where
  | empty
  | object (m : List (String × String))
  | books (l : List BookResponse)
deriving DecidableEq, Repr

/-- The response a handler writes: `c.JSON(status, body)` or
`c.NoContent(status)`. -/
structure Response where
  status : Nat
  body : Body
deriving DecidableEq, Repr

/-- The constant `http.StatusOK`. -/
def StatusOK : Nat := 200
/-- The constant `http.StatusBadRequest`. -/
def StatusBadRequest : Nat := 400
/-- The constant `http.StatusNotFound`. -/
def StatusNotFound : Nat := 404
/-- The constant `http.StatusInternalServerError`. -/
def StatusInternalServerError : Nat := 500

/-! ## The handlers -/

/-- The map `updateFields` that `updateBookRequest` builds from the parsed
request: one guarded assignment per field. -/
def updateFields (updateReq : BookStore) : M :=
  let m : M := []
  let m := if updateReq.BookName ≠ "" then m.set "BookName" (.str updateReq.BookName) else m
  let m := if updateReq.BookAuthor ≠ "" then m.set "BookAuthor" (.str updateReq.BookAuthor) else m
  let m := if updateReq.BookISBN ≠ "" then m.set "BookISBN" (.str updateReq.BookISBN) else m
  let m := if updateReq.BookPages ≠ 0 then m.set "BookPages" (.int updateReq.BookPages) else m
  let m := if updateReq.BookYear ≠ 0 then m.set "BookYear" (.int updateReq.BookYear) else m
  m

/-- The handler `updateBookRequest` (PUT /api/books). `bound` is the outcome of
`c.Bind(&updateReq)`. -/
def updateBookRequest (bound : Except Error BookStore) (fault : Option Error)
    (coll : Collection) : Response × Collection :=
  match bound with
  | .error _ => (⟨StatusBadRequest, .object [("error", "Invalid request body")]⟩, coll)
  | .ok updateReq =>
    let id := updateReq.ID
    if id.IsZero then (⟨StatusBadRequest, .object [("error", "Invalid book ID")]⟩, coll)
    else
      match coll.UpdateOne fault id (updateFields updateReq) with
      | (.error _, coll1) =>
        (⟨StatusInternalServerError, .object [("error", "Failed to update book")]⟩, coll1)
      | (.ok _, coll1) => (⟨StatusOK, .object [("message", "Book updated successfully")]⟩, coll1)

/-- The handler `deleteBookRequest` (DELETE /api/books/:id). `id` is
`c.Param("id")`. -/
def deleteBookRequest (id : String) (fault : Option Error) (coll : Collection) :
    Response × Collection :=
  match ObjectIDFromHex id with
  | .error _ => (⟨StatusBadRequest, .object [("error", "Invalid book ID")]⟩, coll)
  | .ok objID =>
    match coll.DeleteOne fault objID with
    | (.error _, coll1) =>
      (⟨StatusInternalServerError, .object [("error", "Failed to delete book")]⟩, coll1)
    | (.ok deletedCount, coll1) =>
      if deletedCount = 0 then (⟨StatusNotFound, .object [("error", "Book not found")]⟩, coll1)
      else (⟨StatusOK, .object [("message", "Book deleted successfully")]⟩, coll1)

/-- The record `book` that `createBookRequest` builds from the parsed request;
its identifier is left at the zero value. -/
def createBookRequest.book (bookReq : BookRequest) : BookStore :=
  { ID := NilObjectID
    BookName := bookReq.Name
    BookAuthor := bookReq.Author
    BookPages := bookReq.Pages
    BookYear := bookReq.Year
    BookISBN := bookReq.ISBN }

/-- The handler `createBookRequest` (POST /api/books). `bound` is the outcome of
`c.Bind(&bookReq)`; `newID` is the identifier the store side assigns. -/
def createBookRequest (bound : Except Error BookRequest) (fault : Option Error)
    (newID : ObjectID) (coll : Collection) : Response × Collection :=
  match bound with
  | .error _ => (⟨StatusBadRequest, .object [("error", "Invalid request body")]⟩, coll)
  | .ok bookReq =>
    let book := createBookRequest.book bookReq
    match coll.InsertOne fault newID book with
    | (.error _, coll1) =>
      (⟨StatusInternalServerError, .object [("error", "Failed to add book")]⟩, coll1)
    | (.ok _, coll1) => (⟨StatusOK, .empty⟩, coll1)

/-- The response `findAllBooksAPI` builds from one decoded record. -/
def bookResponse (book : BookStore) : BookResponse :=
  { ID := book.ID.Hex
    Name := book.BookName
    Author := book.BookAuthor
    Pages := book.BookPages
    Year := book.BookYear
    ISBN := book.BookISBN }

/-- The loop of `findAllBooksAPI` over the documents of the cursor: a failed
`cursor.Decode` returns `nil, err` at once, a decoded record is appended to
`books`; when `cursor.Next` returns false, `cursor.Err()` decides between
`nil, err` and `books, nil`. A nil slice is the empty list. -/
def findAllBooksAPI.loop (cursorErr : Option Error) :
    List (Except Error BookStore) → List BookResponse → List BookResponse × Option Error
  | [], books =>
    match cursorErr with
    | some err => ([], some err)
    | none => (books, none)
  | .error err :: _, _ => ([], some err)
  | .ok book :: rest, books => findAllBooksAPI.loop cursorErr rest (books ++ [bookResponse book])

/-- The function `findAllBooksAPI`, over the outcome `found` of its call
`coll.Find(ctx, bson.D{})`: the Go pair `([]BookResponse, error)`. -/
def findAllBooksAPI (found : Except Error Cursor) : List BookResponse × Option Error :=
  match found with
  | .error err => ([], some err)
  | .ok cursor => findAllBooksAPI.loop cursor.err cursor.batch []

/-- The route GET /api/books of `main`: the error of `findAllBooksAPI` is
returned to the framework and no list is written, otherwise the list is
written with status 200. -/
def listBooks (fault : Option Error) (coll : Collection) :
    Except Error Response × Collection :=
  let (found, coll1) := coll.Find fault
  match findAllBooksAPI found with
  | (_, some err) => (.error err, coll1)
  | (books, none) => (.ok ⟨StatusOK, .books books⟩, coll1)

/-- The framework's `DefaultHTTPErrorHandler`, which answers when a route
returns an error that is no `*HTTPError`, with `Debug` off as `echo.New()`
leaves it: status 500 and the object `{"message": "Internal Server Error"}`. -/
def DefaultHTTPErrorHandler (_err : Error) : Response :=
  ⟨StatusInternalServerError, .object [("message", "Internal Server Error")]⟩

/-- The response to GET /api/books: the one the route writes, or the one of
the framework when the route returns an error. -/
def serveListBooks (fault : Option Error) (coll : Collection) : Response × Collection :=
  match listBooks fault coll with
  | (.error err, coll1) => (DefaultHTTPErrorHandler err, coll1)
  | (.ok resp, coll1) => (resp, coll1)

/-! ## The views -/

/-- The loop of `findAllAuthors`: a failed `cursor.Decode` returns `nil, err`,
a decoded record adds its author; `cursor.Err()` is not consulted. -/
def findAllAuthors.loop :
    List (Except Error BookStore) → List String → List String × Option Error
  | [], authors => (authors, none)
  | .error err :: _, _ => ([], some err)
  | .ok author :: rest, authors => findAllAuthors.loop rest (authors ++ [author.BookAuthor])

/-- The function `findAllAuthors` (`web/main.go`, `cmd/main.go`), over the
outcome `found` of its call `coll.Find(ctx, bson.D{})`. -/
def findAllAuthors (found : Except Error Cursor) : List String × Option Error :=
  match found with
  | .error err => ([], some err)
  | .ok cursor => findAllAuthors.loop cursor.batch []

/-- The method `cursor.All` of the driver, before the cursor error is looked
at: every document is decoded, the first failure ends the iteration. -/
def Cursor.decodeAll : List (Except Error BookStore) → Except Error (List BookStore)
  | [] => .ok []
  | .error err :: _ => .error err
  | .ok b :: rest =>
    match Cursor.decodeAll rest with
    | .error err => .error err
    | .ok l => .ok (b :: l)

/-- The method `cursor.All` of the driver: the decoded documents, or the first
decoding error, or the error of the cursor. -/
def Cursor.All (cursor : Cursor) : Except Error (List BookStore) :=
  match Cursor.decodeAll cursor.batch with
  | .error err => .error err
  | .ok l =>
    match cursor.err with
    | some err => .error err
    | none => .ok l

/-- The function `findAllYears` (`web/main.go`, `cmd/main.go`), over the outcome
`found` of its call `coll.Find(ctx, bson.D{})`. An error of `Find` or of
`cursor.All` is a panic, here the error result. -/
def findAllYears (found : Except Error Cursor) : Except Error (List Int) :=
  match found with
  | .error err => .error err
  | .ok cursor =>
    match cursor.All with
    | .error err => .error err
    | .ok results => .ok (results.foldl (fun years res => years ++ [res.BookYear]) [])

/-! ## The seed data -/

/-- The filter a `BookStore` value is as the argument of `coll.Find`: an exact
match on name, author, isbn, pages and year, and on the identifier unless it
is the zero identifier (`bson:"_id,omitempty"`). -/
def matchesFilter (filter b : BookStore) : Bool :=
  (filter.ID.IsZero || b.ID == filter.ID) && b.BookName == filter.BookName
    && b.BookAuthor == filter.BookAuthor && b.BookISBN == filter.BookISBN
    && b.BookPages == filter.BookPages && b.BookYear == filter.BookYear

/-- Modelled from the spec: the store operation `find_by_filter`, which
`prepareData` reaches as `coll.Find(ctx, book)`: the query by exact structural
match. It fails with a store error on connection or query failure and
otherwise yields the matching records. -/
def Collection.FindBy (coll : Collection) (fault : Option Error) (filter : BookStore) :
    Except Error Cursor × Collection :=
  match fault with
  | some e => (.error e, coll.record .Find)
  | none => (.ok ⟨(coll.docs.filter (matchesFilter filter)).map .ok, none⟩, coll.record .Find)

/-- The first seed record of `prepareData`. -/
def theVortex : BookStore :=
  { ID := NilObjectID, BookName := "The Vortex", BookAuthor := "José Eustasio Rivera",
    BookISBN := "958-30-0804-4", BookPages := 292, BookYear := 1924 }

/-- The second seed record of `prepareData`. -/
def frankenstein : BookStore :=
  { ID := NilObjectID, BookName := "Frankenstein", BookAuthor := "Mary Shelley",
    BookISBN := "978-3-649-64609-9", BookPages := 280, BookYear := 1818 }

/-- The third seed record of `prepareData`. -/
def theBlackCat : BookStore :=
  { ID := NilObjectID, BookName := "The Black Cat", BookAuthor := "Edgar Allan Poe",
    BookISBN := "978-3-99168-238-7", BookPages := 280, BookYear := 1843 }

/-- The slice `startData` of `prepareData`. -/
def startData : List BookStore := [theVortex, frankenstein, theBlackCat]

/-- What the surroundings decide in one round of the loop of `prepareData`:
whether the find and the insert fail, and the identifier the store side
assigns to an inserted record. -/
structure Env where
  findFault : Option Error
  insertFault : Option Error
  newID : ObjectID

/-- The message of `log.Fatal` in `prepareData`. -/
def ErrMoreRecords : Error := "more records were found"

/-- One round of the loop of `prepareData` for the seed `book`. The process
ends, here the error result, when the find fails (`cursor` is nil and
`cursor.All` panics), when `cursor.All` fails, when more than one record
matches (`log.Fatal`) and when the insert fails (`panic`). With no match the
seed is inserted; with one match the collection is left as it is. -/
def prepareData.step (env : Env) (coll : Collection) (book : BookStore) :
    Except Error Collection :=
  match coll.FindBy env.findFault book with
  | (.error err, _) => .error err
  | (.ok cursor, coll1) =>
    match cursor.All with
    | .error err => .error err
    | .ok results =>
      if results.length > 1 then .error ErrMoreRecords
      else if results.length = 0 then
        match coll1.InsertOne env.insertFault env.newID book with
        | (.error err, _) => .error err
        | (.ok _, coll2) => .ok coll2
      else .ok coll1

/-- The loop of `prepareData` over the remaining seeds; `i` counts the rounds
so far. -/
def prepareData.loop (env : Nat → Env) : Nat → List BookStore → Collection →
    Except Error Collection
  | _, [], coll => .ok coll
  | i, book :: rest, coll =>
    match prepareData.step (env i) coll book with
    | .error err => .error err
    | .ok coll1 => prepareData.loop env (i + 1) rest coll1

/-- The function `prepareData` of `cmd/main.go`: the collection it leaves, or
the error that ended the process. -/
def prepareData (env : Nat → Env) (coll : Collection) : Except Error Collection :=
  prepareData.loop env 0 startData coll

/-! ## Notions of the specification -/

/-- A hexadecimal character, of either case. -/
def isHexDigit (c : Char) : Bool := decide (c ∈ "0123456789abcdefABCDEF".data)

/-- A well-formed identifier in the words of the specification: 24 hexadecimal
characters. -/
def wellFormedID (s : String) : Bool := decide (s.length = 24) && s.data.all isHexDigit

/-- A body that is a JSON object with the single key "error". -/
def isErrorBody : Body → Bool
  | .object [(k, _)] => k == "error"
  | _ => false

/-- A body that is a JSON object with a key "error". -/
def hasErrorKey : Body → Bool
  | .object m => m.any (fun e => e.1 == "error")
  | _ => false

/-- The number of records that match a seed exactly. -/
def matchCount (seed : BookStore) (docs : List BookStore) : Nat :=
  (docs.filter (matchesFilter seed)).length

/-! ## Sample data -/

/-- An identifier whose last byte is `n`. -/
def sampleID (n : Fin 256) : ObjectID := ⟨List.replicate 11 0 ++ [n], by simp⟩

/-- A stored record. -/
def dune : BookStore :=
  { ID := sampleID 1, BookName := "Dune", BookAuthor := "Herbert", BookISBN := "",
    BookPages := 412, BookYear := 1965 }

/-- Another stored record. -/
def emma : BookStore :=
  { ID := sampleID 2, BookName := "Emma", BookAuthor := "Austen", BookISBN := "978-0",
    BookPages := 474, BookYear := 1815 }

/-- A collection of two records on which no call has been made. -/
def shelf : Collection := ⟨[dune, emma], []⟩

/-- An update request that sets only the year of `dune`. -/
def putYear : BookStore :=
  { ID := sampleID 1, BookName := "", BookAuthor := "", BookISBN := "", BookPages := 0,
    BookYear := 1966 }

/-- An update request for `dune` with a new name and year and pages 0. -/
def putNoPages : BookStore :=
  { ID := sampleID 1, BookName := "Dune Messiah", BookAuthor := "", BookISBN := "",
    BookPages := 0, BookYear := 1969 }

/-- An update request without identifier. -/
def putNoID : BookStore :=
  { ID := NilObjectID, BookName := "Dune", BookAuthor := "", BookISBN := "", BookPages := 0,
    BookYear := 0 }

/-- A create request. -/
def postDune : BookRequest :=
  { Name := "Dune", Author := "Herbert", Pages := 412, Year := 1965, ISBN := "" }

/-- A second edition of `dune`: same author and year. -/
def duneAgain : BookStore :=
  { ID := sampleID 3, BookName := "Dune (illustrated)", BookAuthor := "Herbert",
    BookISBN := "", BookPages := 688, BookYear := 1965 }

/-- A collection in which two records share an author and a year. -/
def twoEditions : Collection := ⟨[dune, duneAgain, emma], []⟩

/-- Surroundings in which no call fails and round `i` is given the identifier
with last byte `10 + i`. -/
def calmEnv (i : Nat) : Env := ⟨none, none, sampleID (Fin.ofNat (10 + i))⟩

/-- An update request for an identifier that no record of `shelf` carries. -/
def putUnknown : BookStore :=
  { ID := sampleID 7, BookName := "Ulysses", BookAuthor := "", BookISBN := "", BookPages := 0,
    BookYear := 0 }

/-- A collection that already holds the second seed, and a record that is no
seed. -/
def halfSeeded : Collection := ⟨[{ frankenstein with ID := sampleID 5 }, dune], []⟩

/-- The collection `prepareData` makes of `halfSeeded` in the surroundings
`calmEnv`: the first and the third seed are inserted. -/
def seeded : Collection :=
  ⟨[{ frankenstein with ID := sampleID 5 }, dune, { theVortex with ID := sampleID 10 },
      { theBlackCat with ID := sampleID 12 }],
    [.Find, .InsertOne theVortex, .Find, .Find, .InsertOne theBlackCat]⟩

/-! ## Hexadecimal identifiers -/

theorem fromHexChar_isSome_eq (c : Char) : (fromHexChar c).isSome = isHexDigit c := by
  rw [Bool.eq_iff_iff]
  constructor
  · intro h
    have hc : c = Char.ofNat c.toNat := (Char.ofNat_toNat c).symm
    have hr : (48 ≤ c.toNat ∧ c.toNat ≤ 57) ∨ (97 ≤ c.toNat ∧ c.toNat ≤ 102)
        ∨ (65 ≤ c.toNat ∧ c.toNat ≤ 70) := by
      unfold fromHexChar at h
      by_contra hn
      simp only [not_or] at hn
      simp [hn.1, hn.2.1, hn.2.2] at h
    rw [hc]
    generalize c.toNat = n at hr
    rcases hr with ⟨h1, h2⟩ | ⟨h1, h2⟩ | ⟨h1, h2⟩ <;> interval_cases n <;> decide
  · intro h
    simp only [isHexDigit, decide_eq_true_eq] at h
    have h2 : c ∈ ['0', '1', '2', '3', '4', '5', '6', '7', '8', '9', 'a', 'b', 'c', 'd', 'e', 'f',
        'A', 'B', 'C', 'D', 'E', 'F'] := h
    simp only [List.mem_cons, List.mem_singleton, List.not_mem_nil, or_false] at h2
    rcases h2 with h | h | h | h | h | h | h | h | h | h | h | h | h | h | h | h | h | h | h | h
      | h | h <;> subst h <;> decide

theorem utf8Size_of_hex (c : Char) (h : (fromHexChar c).isSome = true) : c.utf8Size = 1 := by
  have hr : c.toNat ≤ 127 := by
    unfold fromHexChar at h
    by_contra hn
    have h1 : ¬ (48 ≤ c.toNat ∧ c.toNat ≤ 57) := by omega
    have h2 : ¬ (97 ≤ c.toNat ∧ c.toNat ≤ 102) := by omega
    have h3 : ¬ (65 ≤ c.toNat ∧ c.toNat ≤ 70) := by omega
    simp [h1, h2, h3] at h
  have hv : c.val ≤ UInt32.ofNatCore 127 (by decide) := by
    rw [UInt32.le_def]
    exact hr
  unfold Char.utf8Size
  exact if_pos hv

theorem utf8ByteSize_go_of_ascii (cs : List Char) (h : ∀ c ∈ cs, c.utf8Size = 1) :
    String.utf8ByteSize.go cs = cs.length := by
  induction cs with
  | nil => rfl
  | cons c rest ih =>
    have h1 := h c (List.mem_cons_self _ _)
    have h2 := ih (fun d hd => h d (List.mem_cons_of_mem _ hd))
    show String.utf8ByteSize.go rest + c.utf8Size = rest.length + 1
    rw [h1, h2]

theorem hexDecode_ok_aux (n : Nat) : ∀ (cs : List Char) (l : List (Fin 256)), cs.length ≤ n →
    hexDecode cs = .ok l →
    cs.length = 2 * l.length ∧ ∀ c ∈ cs, (fromHexChar c).isSome = true := by
  induction n with
  | zero =>
    intro cs l hn h
    have : cs = [] := List.length_eq_zero.mp (by omega)
    subst this
    simp [hexDecode] at h
    subst h
    simp
  | succ n ih =>
    intro cs l hn h
    match cs, hn, h with
    | [], _, h =>
      simp [hexDecode] at h
      subst h
      simp
    | [p], _, h =>
      simp only [hexDecode] at h
      split at h <;> cases h
    | p :: q :: rest, hn, h =>
      simp only [hexDecode] at h
      split at h
      · cases h
      · rename_i a ha
        split at h
        · cases h
        · rename_i b hb
          split at h
          · cases h
          · rename_i l2 hl2
            cases h
            obtain ⟨h1, h2⟩ := ih rest l2 (by simp at hn; omega) hl2
            refine ⟨by simp [h1]; omega, ?_⟩
            intro c hc
            simp only [List.mem_cons] at hc
            rcases hc with rfl | rfl | hc
            · simp [ha]
            · simp [hb]
            · exact h2 c hc

/-- A successful `hexDecode` read two digits per byte. -/
theorem hexDecode_ok (cs : List Char) (l : List (Fin 256)) (h : hexDecode cs = .ok l) :
    cs.length = 2 * l.length ∧ ∀ c ∈ cs, (fromHexChar c).isSome = true :=
  hexDecode_ok_aux cs.length cs l (Nat.le_refl _) h

theorem hexDecode_of_digits_aux (n : Nat) : ∀ (cs : List Char), cs.length ≤ n →
    cs.length % 2 = 0 → (∀ c ∈ cs, (fromHexChar c).isSome = true) →
    ∃ l, hexDecode cs = .ok l := by
  induction n with
  | zero =>
    intro cs hn _ _
    have : cs = [] := List.length_eq_zero.mp (by omega)
    subst this
    exact ⟨[], rfl⟩
  | succ n ih =>
    intro cs hn heven h
    match cs, hn, heven, h with
    | [], _, _, _ => exact ⟨[], rfl⟩
    | [p], _, heven, _ => simp at heven
    | p :: q :: rest, hn, heven, h =>
      have hp := h p (by simp)
      have hq := h q (by simp)
      obtain ⟨a, ha⟩ := Option.isSome_iff_exists.mp hp
      obtain ⟨b, hb⟩ := Option.isSome_iff_exists.mp hq
      obtain ⟨l, hl⟩ := ih rest (by simp at hn; omega) (by simp at heven; omega)
        (fun c hc => h c (by simp [hc]))
      exact ⟨_, by simp only [hexDecode, ha, hb, hl]; rfl⟩

/-- An even number of digits always decodes. -/
theorem hexDecode_of_digits (cs : List Char) (heven : cs.length % 2 = 0)
    (h : ∀ c ∈ cs, (fromHexChar c).isSome = true) : ∃ l, hexDecode cs = .ok l :=
  hexDecode_of_digits_aux cs.length cs (Nat.le_refl _) heven h

/-- The strings `ObjectIDFromHex` accepts are the well-formed identifiers of the
specification. -/
theorem ObjectIDFromHex_ok_iff (s : String) :
    (∃ X, ObjectIDFromHex s = .ok X) ↔ wellFormedID s = true := by
  constructor
  · rintro ⟨X, hX⟩
    unfold ObjectIDFromHex at hX
    split at hX
    · cases hX
    · rename_i hsize
      split at hX
      · cases hX
      · rename_i l hl
        obtain ⟨h1, h2⟩ := hexDecode_ok _ _ hl
        have h3 : String.utf8ByteSize.go s.data = s.data.length :=
          utf8ByteSize_go_of_ascii _ (fun c hc => utf8Size_of_hex c (h2 c hc))
        have h4 : s.utf8ByteSize = String.utf8ByteSize.go s.data := by cases s; rfl
        simp only [ne_eq, Decidable.not_not] at hsize
        simp only [wellFormedID, Bool.and_eq_true, decide_eq_true_eq, List.all_eq_true]
        refine ⟨?_, fun c hc => by rw [← fromHexChar_isSome_eq]; exact h2 c hc⟩
        show s.data.length = 24
        omega
  · intro h
    simp only [wellFormedID, Bool.and_eq_true, decide_eq_true_eq, List.all_eq_true] at h
    obtain ⟨hlen, hall⟩ := h
    have hlen2 : s.data.length = 24 := hlen
    have hdig : ∀ c ∈ s.data, (fromHexChar c).isSome = true := fun c hc => by
      rw [fromHexChar_isSome_eq]; exact hall c hc
    have h3 : String.utf8ByteSize.go s.data = s.data.length :=
      utf8ByteSize_go_of_ascii _ (fun c hc => utf8Size_of_hex c (hdig c hc))
    have h4 : s.utf8ByteSize = String.utf8ByteSize.go s.data := by cases s; rfl
    obtain ⟨l, hl⟩ := hexDecode_of_digits s.data (by omega) hdig
    obtain ⟨h1, -⟩ := hexDecode_ok _ _ hl
    have h12 : l.length = 12 := by omega
    refine ⟨⟨l, h12⟩, ?_⟩
    unfold ObjectIDFromHex
    rw [if_neg (by rw [h4, h3, hlen2]; decide)]
    simp only [hl]
    rw [dif_pos h12]

theorem encodeByte_decode (b : Fin 256) (rest : List Char) (l : List (Fin 256))
    (h : hexDecode rest = .ok l) : hexDecode (encodeByte b ++ rest) = .ok (b :: l) := by
  have hhi : ∀ n : Fin 16, fromHexChar (hextable.getD n.val '0') = some n := by decide
  have h1 := hhi ⟨b.val / 16, by omega⟩
  have h2 := hhi ⟨b.val % 16, by omega⟩
  show hexDecode (hextable.getD (b.val / 16) '0' :: hextable.getD (b.val % 16) '0' :: rest)
    = .ok (b :: l)
  simp only [hexDecode, h1, h2, h]
  congr 2
  apply Fin.ext
  show b.val / 16 * 16 + b.val % 16 = b.val
  omega

theorem hexDecode_flatMap (l : List (Fin 256)) : hexDecode (l.flatMap encodeByte) = .ok l := by
  induction l with
  | nil => rfl
  | cons b rest ih =>
    rw [List.flatMap_cons]
    exact encodeByte_decode b _ _ ih

/-- The display form of an identifier parses back to the identifier. -/
theorem ObjectIDFromHex_Hex (X : ObjectID) : ObjectIDFromHex X.Hex = .ok X := by
  have hl := hexDecode_flatMap X.bytes
  obtain ⟨h1, h2⟩ := hexDecode_ok _ _ hl
  have h3 : String.utf8ByteSize.go (X.bytes.flatMap encodeByte) = 24 := by
    rw [utf8ByteSize_go_of_ascii _ (fun c hc => utf8Size_of_hex c (h2 c hc)), h1, X.size]
  have h4 : ¬ (X.Hex.utf8ByteSize ≠ 24) := fun hne => hne h3
  have h5 : X.Hex.data = X.bytes.flatMap encodeByte := rfl
  unfold ObjectIDFromHex
  rw [if_neg h4, h5]
  simp only [hl]
  rw [dif_pos X.size]

/-! ## The collection and the listing -/

theorem updateFirst_split (id : ObjectID) (l : List BookStore) (h : ∃ b ∈ l, b.ID = id) :
    ∃ pre b post, l = pre ++ b :: post ∧ b.ID = id ∧ (∀ p ∈ pre, p.ID ≠ id) ∧
      ∀ f, updateFirst id f l = pre ++ f b :: post := by
  induction l with
  | nil => simp at h
  | cons a rest ih =>
    by_cases ha : a.ID = id
    · exact ⟨[], a, rest, by simp, ha, by simp, fun f => by simp [updateFirst, ha]⟩
    · have h2 : ∃ b ∈ rest, b.ID = id := by
        obtain ⟨b, hb, hbid⟩ := h
        rcases List.mem_cons.mp hb with rfl | hb
        · exact absurd hbid ha
        · exact ⟨b, hb, hbid⟩
      obtain ⟨pre, b, post, hl, hb, hpre, hf⟩ := ih h2
      refine ⟨a :: pre, b, post, by simp [hl], hb, ?_, fun f => by simp [updateFirst, ha, hf]⟩
      intro p hp
      rcases List.mem_cons.mp hp with rfl | hp
      · exact ha
      · exact hpre p hp

theorem updateFirst_map_eq {β : Type} (g : BookStore → β) (id : ObjectID)
    (f : BookStore → BookStore) (hf : ∀ b, g (f b) = g b) (l : List BookStore) :
    (updateFirst id f l).map g = l.map g := by
  induction l with
  | nil => rfl
  | cons a rest ih =>
    by_cases ha : a.ID = id <;> simp [updateFirst, ha, hf, ih]

theorem deleteFirst_of_absent (id : ObjectID) (l : List BookStore) (h : ∀ b ∈ l, b.ID ≠ id) :
    deleteFirst id l = l := by
  induction l with
  | nil => rfl
  | cons a rest ih =>
    have ha : a.ID ≠ id := h a (List.mem_cons_self _ _)
    simp [deleteFirst, ha, ih (fun b hb => h b (List.mem_cons_of_mem _ hb))]

theorem deleteFirst_absent_of_nodup (id : ObjectID) (l : List BookStore)
    (h : (l.map (fun b => b.ID)).Nodup) : ∀ b ∈ deleteFirst id l, b.ID ≠ id := by
  induction l with
  | nil => simp [deleteFirst]
  | cons a rest ih =>
    simp only [List.map_cons, List.nodup_cons, List.mem_map, not_exists, not_and] at h
    by_cases ha : a.ID = id
    · simp only [deleteFirst, ha, if_true]
      intro b hb hbid
      exact h.1 b hb (hbid.trans ha.symm)
    · simp only [deleteFirst, ha, if_false]
      intro b hb
      rcases List.mem_cons.mp hb with rfl | hb
      · exact ha
      · exact ih h.2 b hb

theorem setField_ID (b : BookStore) (k : String) (v : Value) : (setField b k v).ID = b.ID := by
  unfold setField; split <;> rfl

theorem applySet_ID (fields : M) (b : BookStore) : (applySet b fields).ID = b.ID := by
  unfold applySet
  induction fields generalizing b with
  | nil => rfl
  | cons e rest ih => simp [List.foldl, ih, setField_ID]

theorem loop_all_decoded (l : List BookStore) (acc : List BookResponse) :
    findAllBooksAPI.loop none (l.map .ok) acc = (acc ++ l.map bookResponse, none) := by
  induction l generalizing acc with
  | nil => simp [findAllBooksAPI.loop]
  | cons a rest ih => simp [findAllBooksAPI.loop, ih]

/-- On a collection whose `Find` does not fail the listing holds one response
per record, in the order of the records. -/
theorem findAllBooksAPI_Find (coll : Collection) :
    findAllBooksAPI (coll.Find none).1 = (coll.docs.map bookResponse, none) := by
  simp [Collection.Find, findAllBooksAPI, loop_all_decoded]

/-! ## The update handler -/

theorem UpdateOne_calls (coll : Collection) (fault : Option Error) (id : ObjectID)
    (fields : M) :
    (coll.UpdateOne fault id fields).2.calls = coll.calls ++ [Call.UpdateOne id fields] := by
  unfold Collection.UpdateOne Collection.record
  cases fault with
  | some e => rfl
  | none => dsimp only; split_ifs <;> rfl

theorem UpdateOne_docs (coll : Collection) (fault : Option Error) (id : ObjectID)
    (fields : M) :
    (coll.UpdateOne fault id fields).2.docs = coll.docs ∨
    (coll.UpdateOne fault id fields).2.docs
      = updateFirst id (fun b => applySet b fields) coll.docs := by
  unfold Collection.UpdateOne Collection.record
  cases fault with
  | some e => left; rfl
  | none =>
    dsimp only
    split_ifs
    · left; rfl
    · right; rfl
    · left; rfl

theorem updateBookRequest_snd (req : BookStore) (fault : Option Error) (coll : Collection)
    (hid : req.ID.IsZero = false) :
    (updateBookRequest (.ok req) fault coll).2
      = (coll.UpdateOne fault req.ID (updateFields req)).2 := by
  simp only [updateBookRequest, hid]
  generalize coll.UpdateOne fault req.ID (updateFields req) = r
  rcases r with ⟨_ | _, c⟩ <;> rfl

/-- The content of `updateFields`, key by key. -/
theorem updateFields_get (req : BookStore) :
    M.get (updateFields req) "BookName"
        = (if req.BookName = "" then none else some (.str req.BookName)) ∧
    M.get (updateFields req) "BookAuthor"
        = (if req.BookAuthor = "" then none else some (.str req.BookAuthor)) ∧
    M.get (updateFields req) "BookISBN"
        = (if req.BookISBN = "" then none else some (.str req.BookISBN)) ∧
    M.get (updateFields req) "BookPages"
        = (if req.BookPages = 0 then none else some (.int req.BookPages)) ∧
    M.get (updateFields req) "BookYear"
        = (if req.BookYear = 0 then none else some (.int req.BookYear)) ∧
    (∀ k ∈ (updateFields req).map Prod.fst,
        k ∈ ["BookName", "BookAuthor", "BookISBN", "BookPages", "BookYear"]) ∧
    ((updateFields req).map Prod.fst).Nodup := by
  by_cases h1 : req.BookName = "" <;> by_cases h2 : req.BookAuthor = "" <;>
  by_cases h3 : req.BookISBN = "" <;> by_cases h4 : req.BookPages = 0 <;>
  by_cases h5 : req.BookYear = 0 <;>
  simp [updateFields, M.set, M.get, List.lookup, h1, h2, h3, h4, h5]

theorem applySet_updateFields_pages (req b : BookStore) (hp : req.BookPages = 0) :
    (applySet b (updateFields req)).BookPages = b.BookPages := by
  by_cases h1 : req.BookName = "" <;> by_cases h2 : req.BookAuthor = "" <;>
  by_cases h3 : req.BookISBN = "" <;>
  by_cases h5 : req.BookYear = 0 <;>
  simp [updateFields, M.set, applySet, setField, h1, h2, h3, hp, h5]

theorem updateFields_year_only (req : BookStore) (h1 : req.BookName = "")
    (h2 : req.BookAuthor = "") (h3 : req.BookISBN = "") (h4 : req.BookPages = 0)
    (h5 : req.BookYear ≠ 0) : updateFields req = [("BookYear", .int req.BookYear)] := by
  simp [updateFields, M.set, h1, h2, h3, h4, h5]

/-- C1: for a parsed update request with a non-zero identifier, the call that
reaches the store is `UpdateOne` with the request's identifier and the field
set `updateFields`, and that field set holds each of name, author, isbn,
pages and year exactly when the supplied value differs from the zero value of
its type, with the supplied value. -/
theorem updateBookRequest_field_set (req : BookStore) (fault : Option Error)
    (coll : Collection) (hid : req.ID.IsZero = false) :
    (updateBookRequest (.ok req) fault coll).2.calls
        = coll.calls ++ [Call.UpdateOne req.ID (updateFields req)] ∧
    M.get (updateFields req) "BookName"
        = (if req.BookName = "" then none else some (.str req.BookName)) ∧
    M.get (updateFields req) "BookAuthor"
        = (if req.BookAuthor = "" then none else some (.str req.BookAuthor)) ∧
    M.get (updateFields req) "BookISBN"
        = (if req.BookISBN = "" then none else some (.str req.BookISBN)) ∧
    M.get (updateFields req) "BookPages"
        = (if req.BookPages = 0 then none else some (.int req.BookPages)) ∧
    M.get (updateFields req) "BookYear"
        = (if req.BookYear = 0 then none else some (.int req.BookYear)) := by
  obtain ⟨h1, h2, h3, h4, h5, -, -⟩ := updateFields_get req
  refine ⟨?_, h1, h2, h3, h4, h5⟩
  rw [updateBookRequest_snd req fault coll hid, UpdateOne_calls]

/-- C1 at the request `putNoPages` on `shelf`: the store receives name and year
and neither author, isbn nor pages. -/
theorem updateBookRequest_field_set_witness :
    putNoPages.ID.IsZero = false ∧
    (updateBookRequest (.ok putNoPages) none shelf).2.calls
        = [Call.UpdateOne (sampleID 1)
            [("BookName", .str "Dune Messiah"), ("BookYear", .int 1969)]] :=
  ⟨by decide, (updateBookRequest_field_set putNoPages none shelf (by decide)).1⟩

/-- C2: when the collection holds a record with the identifier of the request,
the request sets only a non-zero year, and `updateBookRequest` answers 200,
then the listing of `findAllBooksAPI` after the update is the listing before
it with the year of the first record of that identifier replaced by the
request's year: that record keeps its id, name, author, isbn and pages, and
every other record is listed as before. -/
theorem updateBookRequest_year_only (req : BookStore) (fault : Option Error)
    (coll : Collection)
    (hpresent : ∃ b ∈ coll.docs, b.ID = req.ID)
    (hname : req.BookName = "") (hauthor : req.BookAuthor = "") (hisbn : req.BookISBN = "")
    (hpages : req.BookPages = 0) (hyear : req.BookYear ≠ 0)
    (hok : (updateBookRequest (.ok req) fault coll).1.status = StatusOK) :
    ∃ pre b post, coll.docs = pre ++ b :: post ∧ b.ID = req.ID ∧ (∀ p ∈ pre, p.ID ≠ req.ID) ∧
      findAllBooksAPI (coll.Find none).1
        = (pre.map bookResponse ++ bookResponse b :: post.map bookResponse, none) ∧
      findAllBooksAPI ((updateBookRequest (.ok req) fault coll).2.Find none).1
        = (pre.map bookResponse
            ++ { bookResponse b with Year := req.BookYear } :: post.map bookResponse, none) := by
  have hid : req.ID.IsZero = false := by
    by_contra h
    simp at h
    simp [updateBookRequest, h, StatusOK, StatusBadRequest] at hok
  have hfault : fault = none := by
    cases fault with
    | none => rfl
    | some e =>
      simp [updateBookRequest, hid, Collection.UpdateOne, StatusOK,
        StatusInternalServerError] at hok
  subst hfault
  have hfields := updateFields_year_only req hname hauthor hisbn hpages hyear
  have hany : coll.docs.any (fun b => b.ID == req.ID) = true := by
    obtain ⟨b, hb, hbid⟩ := hpresent
    simp only [List.any_eq_true]
    exact ⟨b, hb, by simp [hbid]⟩
  have hdocs : (updateBookRequest (.ok req) none coll).2.docs
      = updateFirst req.ID (fun b => applySet b (updateFields req)) coll.docs := by
    rw [updateBookRequest_snd req none coll hid]
    simp [Collection.UpdateOne, hany, hfields]
  obtain ⟨pre, b, post, hl, hb, hpre, hf⟩ := updateFirst_split req.ID coll.docs hpresent
  refine ⟨pre, b, post, hl, hb, hpre, ?_, ?_⟩
  · rw [findAllBooksAPI_Find, hl]; simp
  · rw [findAllBooksAPI_Find, hdocs, hf, hfields]
    simp [applySet, setField, bookResponse]

/-- C2 at the request `putYear` on `shelf`. -/
theorem updateBookRequest_year_only_witness :
    ∃ pre b post, shelf.docs = pre ++ b :: post ∧ b.ID = putYear.ID ∧
      (∀ p ∈ pre, p.ID ≠ putYear.ID) ∧
      findAllBooksAPI (shelf.Find none).1
        = (pre.map bookResponse ++ bookResponse b :: post.map bookResponse, none) ∧
      findAllBooksAPI ((updateBookRequest (.ok putYear) none shelf).2.Find none).1
        = (pre.map bookResponse
            ++ { bookResponse b with Year := putYear.BookYear } :: post.map bookResponse, none) :=
  updateBookRequest_year_only putYear none shelf ⟨dune, by decide, by decide⟩ rfl rfl rfl rfl
    (by decide) (by decide)

/-- C3: for a parsed update request with pages 0, whatever its other fields and
whether or not the store call fails, every record of the collection has after
`updateBookRequest` the identifier and the pages value it had before. -/
theorem updateBookRequest_zero_pages (req : BookStore) (fault : Option Error)
    (coll : Collection) (hpages : req.BookPages = 0) :
    (updateBookRequest (.ok req) fault coll).2.docs.map (fun b => (b.ID, b.BookPages))
      = coll.docs.map (fun b => (b.ID, b.BookPages)) := by
  by_cases hid : req.ID.IsZero = false
  · rw [updateBookRequest_snd req fault coll hid]
    rcases UpdateOne_docs coll fault req.ID (updateFields req) with h | h
    · rw [h]
    · rw [h]
      apply updateFirst_map_eq
      intro b
      simp [applySet_ID, applySet_updateFields_pages req b hpages]
  · simp at hid
    simp [updateBookRequest, hid]

/-- C3 at the request `putNoPages` on `shelf`: the update goes through and the
record keeps its 412 pages. -/
theorem updateBookRequest_zero_pages_witness :
    (updateBookRequest (.ok putNoPages) none shelf).1.status = 200 ∧
    (updateBookRequest (.ok putNoPages) none shelf).2.docs.map (fun b => (b.ID, b.BookPages))
      = [(sampleID 1, 412), (sampleID 2, 474)] :=
  ⟨by decide, updateBookRequest_zero_pages putNoPages none shelf rfl⟩

/-! ## The delete handler -/

/-- C4: for a well-formed identifier (24 hexadecimal characters) that parses to
the identifier of no record, and a store call that does not fail,
`deleteBookRequest` answers 404 and the records of the collection are the
same after the call as before. -/
theorem deleteBookRequest_absent (id : String) (coll : Collection)
    (hwf : wellFormedID id = true)
    (habsent : ∀ b ∈ coll.docs, ObjectIDFromHex id ≠ .ok b.ID) :
    (deleteBookRequest id none coll).1
      = ⟨StatusNotFound, .object [("error", "Book not found")]⟩ ∧
    (deleteBookRequest id none coll).2.docs = coll.docs := by
  obtain ⟨X, hX⟩ := (ObjectIDFromHex_ok_iff id).mpr hwf
  have hno : coll.docs.any (fun b => b.ID == X) = false := by
    rw [List.any_eq_false]
    intro b hb
    simp only [beq_iff_eq]
    intro h
    exact habsent b hb (h ▸ hX)
  simp [deleteBookRequest, hX, Collection.DeleteOne, hno, Collection.record]

/-- C4 at an identifier that neither record of `shelf` carries. -/
theorem deleteBookRequest_absent_witness :
    wellFormedID "0000000000000000000000ff" = true ∧
    (deleteBookRequest "0000000000000000000000ff" none shelf).1.status = 404 ∧
    (deleteBookRequest "0000000000000000000000ff" none shelf).2.docs = [dune, emma] :=
  have h := deleteBookRequest_absent "0000000000000000000000ff" shelf (by decide) (by decide)
  ⟨by decide, congrArg Response.status h.1, h.2⟩

/-- C5: for a path identifier that is not a well-formed identifier,
`deleteBookRequest` answers 400 and returns the collection as it received it:
no call is on record, `DeleteOne` in particular, and no record has changed. -/
theorem deleteBookRequest_invalid (id : String) (fault : Option Error) (coll : Collection)
    (hbad : wellFormedID id = false) :
    deleteBookRequest id fault coll
      = (⟨StatusBadRequest, .object [("error", "Invalid book ID")]⟩, coll) := by
  have hnone : ∀ X, ObjectIDFromHex id ≠ .ok X := by
    intro X hX
    have := (ObjectIDFromHex_ok_iff id).mp ⟨X, hX⟩
    simp [hbad] at this
  unfold deleteBookRequest
  split
  · rfl
  · rename_i X hX
    exact absurd hX (hnone X)

/-- C5 at an identifier of 23 digits and at one with a letter that is no digit. -/
theorem deleteBookRequest_invalid_witness :
    (deleteBookRequest "00000000000000000000001" none shelf).1.status = 400 ∧
    (deleteBookRequest "00000000000000000000001" none shelf).2 = shelf ∧
    (deleteBookRequest "00000000000000000000000g" none shelf).2.calls = [] :=
  ⟨congrArg (fun r => r.1.status)
      (deleteBookRequest_invalid "00000000000000000000001" none shelf (by decide)),
    congrArg Prod.snd
      (deleteBookRequest_invalid "00000000000000000000001" none shelf (by decide)),
    congrArg (fun r => r.2.calls)
      (deleteBookRequest_invalid "00000000000000000000000g" none shelf (by decide))⟩

/-- C6: on a collection whose identifiers are unique and that holds a record
with identifier `X`, with no store failure, the first `deleteBookRequest` for
a path identifier that parses to `X` answers 200 and the second, on the
collection the first one left, answers 404. -/
theorem deleteBookRequest_twice (id : String) (X : ObjectID) (coll : Collection)
    (hparse : ObjectIDFromHex id = .ok X)
    (huniq : (coll.docs.map (fun b => b.ID)).Nodup)
    (hpresent : ∃ b ∈ coll.docs, b.ID = X) :
    (deleteBookRequest id none coll).1
      = ⟨StatusOK, .object [("message", "Book deleted successfully")]⟩ ∧
    (deleteBookRequest id none (deleteBookRequest id none coll).2).1
      = ⟨StatusNotFound, .object [("error", "Book not found")]⟩ := by
  have hany : coll.docs.any (fun b => b.ID == X) = true := by
    obtain ⟨b, hb, hbid⟩ := hpresent
    simp only [List.any_eq_true]
    exact ⟨b, hb, by simp [hbid]⟩
  have hgone : (deleteFirst X coll.docs).any (fun b => b.ID == X) = false := by
    rw [List.any_eq_false]
    intro b hb
    simp only [beq_iff_eq]
    exact deleteFirst_absent_of_nodup X coll.docs huniq b hb
  have h1 : deleteBookRequest id none coll
      = (⟨StatusOK, .object [("message", "Book deleted successfully")]⟩,
          { coll.record (.DeleteOne X) with docs := deleteFirst X coll.docs }) := by
    simp [deleteBookRequest, hparse, Collection.DeleteOne, hany]
  rw [h1]
  refine ⟨rfl, ?_⟩
  simp [deleteBookRequest, hparse, Collection.DeleteOne, hgone, Collection.record]

/-- C6 at the identifier of `dune` on `shelf`. -/
theorem deleteBookRequest_twice_witness :
    (deleteBookRequest "000000000000000000000001" none shelf).1.status = 200 ∧
    (deleteBookRequest "000000000000000000000001" none
      (deleteBookRequest "000000000000000000000001" none shelf).2).1.status = 404 :=
  have h := deleteBookRequest_twice "000000000000000000000001" (sampleID 1) shelf
    (by decide) (by decide) ⟨dune, by decide, rfl⟩
  ⟨congrArg Response.status h.1, congrArg Response.status h.2⟩

/-! ## Create and list -/

/-- C7: when neither store call fails, the listing after `createBookRequest` for
a parsed request `r` is the listing before it followed by exactly one more
response, whose name, author, isbn, pages and year are those of `r`. -/
theorem createBookRequest_then_list (r : BookRequest) (fault : Option Error)
    (newID : ObjectID) (coll : Collection)
    (hins : ∃ id, (coll.InsertOne fault newID (createBookRequest.book r)).1 = .ok id) :
    ∃ resp : BookResponse,
      findAllBooksAPI ((createBookRequest (.ok r) fault newID coll).2.Find none).1
        = ((findAllBooksAPI (coll.Find none).1).1 ++ [resp], none) ∧
      (findAllBooksAPI (coll.Find none).1).2 = none ∧
      resp.Name = r.Name ∧ resp.Author = r.Author ∧ resp.ISBN = r.ISBN ∧
      resp.Pages = r.Pages ∧ resp.Year = r.Year := by
  obtain ⟨id, hid⟩ := hins
  have hfault : fault = none := by
    cases fault with
    | none => rfl
    | some e => simp [Collection.InsertOne] at hid
  subst hfault
  have hzero : (createBookRequest.book r).ID.IsZero = true := rfl
  have hfresh : coll.docs.any (fun b => b.ID == newID) = false := by
    by_contra h
    simp only [Bool.not_eq_false] at h
    simp [Collection.InsertOne, hzero, h] at hid
  have hdocs : (createBookRequest (.ok r) none newID coll).2.docs
      = coll.docs ++ [{ createBookRequest.book r with ID := newID }] := by
    simp [createBookRequest, Collection.InsertOne, hzero, hfresh]
  refine ⟨bookResponse { createBookRequest.book r with ID := newID }, ?_, ?_, rfl, rfl, rfl,
    rfl, rfl⟩
  · rw [findAllBooksAPI_Find, findAllBooksAPI_Find, hdocs]
    simp
  · rw [findAllBooksAPI_Find]

/-- C7 at the request `postDune` on the empty collection. -/
theorem createBookRequest_then_list_witness :
    ∃ resp : BookResponse,
      findAllBooksAPI ((createBookRequest (.ok postDune) none (sampleID 9) ⟨[], []⟩).2.Find
        none).1 = ([] ++ [resp], none) ∧
      (findAllBooksAPI (Collection.Find ⟨[], []⟩ none).1).2 = none ∧
      resp.Name = "Dune" ∧ resp.Author = "Herbert" ∧ resp.ISBN = "" ∧
      resp.Pages = 412 ∧ resp.Year = 1965 :=
  createBookRequest_then_list postDune none (sampleID 9) ⟨[], []⟩ ⟨sampleID 9, by decide⟩

/-- C8: when the cursor yields the records `records` and neither a decoding nor
the cursor fails, `findAllBooksAPI` returns no error and one response per
record, in the order of the records; the response of a record has the
hexadecimal form of its identifier as id and its name, author, pages, year
and isbn. -/
theorem findAllBooksAPI_maps_records (records : List BookStore) :
    findAllBooksAPI (.ok ⟨records.map .ok, none⟩)
      = (records.map (fun book =>
          { ID := book.ID.Hex, Name := book.BookName, Author := book.BookAuthor,
            Pages := book.BookPages, Year := book.BookYear, ISBN := book.BookISBN }), none) ∧
    (findAllBooksAPI (.ok ⟨records.map .ok, none⟩)).1.length = records.length ∧
    ∀ i : Nat, (findAllBooksAPI (.ok ⟨records.map .ok, none⟩)).1[i]?
      = (records[i]?).map (fun book =>
          { ID := book.ID.Hex, Name := book.BookName, Author := book.BookAuthor,
            Pages := book.BookPages, Year := book.BookYear, ISBN := book.BookISBN }) := by
  have h : findAllBooksAPI (.ok ⟨records.map .ok, none⟩)
      = (records.map bookResponse, none) := by
    simp [findAllBooksAPI, loop_all_decoded]
  rw [h]
  refine ⟨rfl, by simp, fun i => ?_⟩
  simp [List.getElem?_map]
  rfl

theorem loop_decode_error (cursorErr : Option Error) (decoded : List BookStore) (e : Error)
    (rest : List (Except Error BookStore)) (acc : List BookResponse) :
    findAllBooksAPI.loop cursorErr (decoded.map .ok ++ .error e :: rest) acc = ([], some e) := by
  induction decoded generalizing acc with
  | nil => simp [findAllBooksAPI.loop]
  | cons a tl ih => simp [findAllBooksAPI.loop, ih]

theorem loop_cursor_error (decoded : List BookStore) (e : Error) (acc : List BookResponse) :
    findAllBooksAPI.loop (some e) (decoded.map .ok) acc = ([], some e) := by
  induction decoded generalizing acc with
  | nil => simp [findAllBooksAPI.loop]
  | cons a tl ih => simp [findAllBooksAPI.loop, ih]

theorem loop_no_error (cursorErr : Option Error) (batch : List (Except Error BookStore))
    (acc : List BookResponse) (h : (findAllBooksAPI.loop cursorErr batch acc).2 = none) :
    cursorErr = none ∧ ∃ records : List BookStore, batch = records.map .ok := by
  induction batch generalizing acc with
  | nil =>
    cases cursorErr with
    | none => exact ⟨rfl, [], rfl⟩
    | some e => simp [findAllBooksAPI.loop] at h
  | cons a tl ih =>
    cases a with
    | error e => simp [findAllBooksAPI.loop] at h
    | ok book =>
      simp only [findAllBooksAPI.loop] at h
      obtain ⟨h1, records, h2⟩ := ih _ h
      exact ⟨h1, book :: records, by simp [h2]⟩

/-- C9: `findAllBooksAPI` returns the error and the nil list when the find call
fails, when the decoding of a record fails after any number of decoded
records, and when the cursor reports an error after any number of decoded
records; the route of `main` then returns the error and writes no list. It
returns without error exactly when the cursor yielded only decodable records
and reported no error. -/
theorem findAllBooksAPI_all_or_nothing :
    (∀ e : Error, findAllBooksAPI (.error e) = ([], some e)) ∧
    (∀ (decoded : List BookStore) (e : Error) (rest : List (Except Error BookStore))
        (cursorErr : Option Error),
      findAllBooksAPI (.ok ⟨decoded.map .ok ++ .error e :: rest, cursorErr⟩) = ([], some e)) ∧
    (∀ (decoded : List BookStore) (e : Error),
      findAllBooksAPI (.ok ⟨decoded.map .ok, some e⟩) = ([], some e)) ∧
    (∀ (e : Error) (coll : Collection), (listBooks (some e) coll).1 = .error e) ∧
    (∀ found : Except Error Cursor,
      (findAllBooksAPI found).2 = none ↔
        ∃ records : List BookStore, found = .ok ⟨records.map .ok, none⟩) := by
  refine ⟨fun e => rfl, ?_, ?_, ?_, ?_⟩
  · intro decoded e rest cursorErr
    simp [findAllBooksAPI, loop_decode_error]
  · intro decoded e
    simp [findAllBooksAPI, loop_cursor_error]
  · intro e coll
    simp [listBooks, Collection.Find, findAllBooksAPI]
  · intro found
    constructor
    · intro h
      cases found with
      | error e => simp [findAllBooksAPI] at h
      | ok cursor =>
        obtain ⟨batch, err⟩ := cursor
        simp only [findAllBooksAPI] at h
        obtain ⟨h1, records, h2⟩ := loop_no_error err batch [] h
        exact ⟨records, by simp [h1, h2]⟩
    · rintro ⟨records, rfl⟩
      simp [findAllBooksAPI, loop_all_decoded]

/-- C10: a parsed update request with the zero identifier is answered with 400
and the collection is returned as it was received, with no call on record; a
parsed request with a non-zero identifier puts the `UpdateOne` call for its
identifier and field set on record, whether or not the store then fails. -/
theorem updateBookRequest_identifier_gate (req : BookStore) (fault : Option Error)
    (coll : Collection) :
    (req.ID.IsZero = true →
      updateBookRequest (.ok req) fault coll
        = (⟨StatusBadRequest, .object [("error", "Invalid book ID")]⟩, coll)) ∧
    (req.ID.IsZero = false →
      (updateBookRequest (.ok req) fault coll).2.calls
        = coll.calls ++ [Call.UpdateOne req.ID (updateFields req)]) := by
  constructor
  · intro h
    simp [updateBookRequest, h]
  · intro h
    rw [updateBookRequest_snd req fault coll h, UpdateOne_calls]

/-- C10 at the request `putNoID`, which has no identifier, and at `putYear`. -/
theorem updateBookRequest_identifier_gate_witness :
    updateBookRequest (.ok putNoID) none shelf
        = (⟨400, .object [("error", "Invalid book ID")]⟩, shelf) ∧
    (updateBookRequest (.ok putYear) (some "no reachable servers") shelf).2.calls
        = [Call.UpdateOne (sampleID 1) [("BookYear", .int 1966)]] :=
  ⟨(updateBookRequest_identifier_gate putNoID none shelf).1 (by decide),
    (updateBookRequest_identifier_gate putYear (some "no reachable servers") shelf).2
      (by decide)⟩

/-! ## The seed data -/

theorem FindBy_none (coll : Collection) (filter : BookStore) :
    coll.FindBy none filter
      = (.ok ⟨(coll.docs.filter (matchesFilter filter)).map .ok, none⟩, coll.record .Find) := rfl

theorem decodeAll_map_ok (l : List BookStore) : Cursor.decodeAll (l.map .ok) = .ok l := by
  induction l with
  | nil => rfl
  | cons a rest ih => simp [Cursor.decodeAll, ih]

theorem All_map_ok (l : List BookStore) : Cursor.All ⟨l.map .ok, none⟩ = .ok l := by
  simp [Cursor.All, decodeAll_map_ok]

theorem matchCount_append (seed : BookStore) (l1 l2 : List BookStore) :
    matchCount seed (l1 ++ l2) = matchCount seed l1 + matchCount seed l2 := by
  simp [matchCount]

/-- A round that does not end the process leaves exactly one match of its seed
and changes the number of matches of no seed that the inserted record does
not match. -/
theorem step_ok (env : Env) (coll coll1 : Collection) (book : BookStore)
    (hz : book.ID.IsZero = true) (h : prepareData.step env coll book = .ok coll1) :
    matchCount book coll1.docs = 1 ∧
    ∀ other : BookStore, matchesFilter other { book with ID := env.newID } = false →
      matchCount other coll1.docs = matchCount other coll.docs := by
  unfold prepareData.step at h
  cases hf : env.findFault with
  | some e => simp [hf, Collection.FindBy] at h
  | none =>
    rw [hf, FindBy_none] at h
    simp only [All_map_ok] at h
    split_ifs at h with h1 h0
    · -- no match: the seed is inserted
      cases hi : env.insertFault with
      | some e => simp [hi, Collection.InsertOne] at h
      | none =>
        simp only [hi, Collection.InsertOne, Collection.record, hz, if_true] at h
        split_ifs at h with hdup
        cases h
        have hself : matchesFilter book { book with ID := env.newID } = true := by
          simp [matchesFilter, hz]
        refine ⟨?_, ?_⟩
        · rw [matchCount_append]
          have : matchCount book coll.docs = 0 := h0
          rw [this, Nat.zero_add]
          simp [matchCount, hself]
        · intro other ho
          rw [matchCount_append]
          simp [matchCount, ho]
    · -- one match: nothing changes
      cases h
      refine ⟨?_, fun _ _ => rfl⟩
      show (coll.docs.filter (matchesFilter book)).length = 1
      omega

/-- A round on a collection with exactly one match of its seed only performs
the find. -/
theorem step_of_one (env : Env) (coll : Collection) (book : BookStore)
    (h1 : matchCount book coll.docs = 1) :
    prepareData.step env coll book
      = match env.findFault with
        | some e => .error e
        | none => .ok (coll.record .Find) := by
  unfold prepareData.step
  cases hf : env.findFault with
  | some e => simp [Collection.FindBy]
  | none =>
    rw [FindBy_none]
    simp only [All_map_ok]
    have : (coll.docs.filter (matchesFilter book)).length = 1 := h1
    simp [this]

theorem seeds_zero : theVortex.ID.IsZero = true ∧ frankenstein.ID.IsZero = true
    ∧ theBlackCat.ID.IsZero = true := ⟨rfl, rfl, rfl⟩

/-- An inserted seed matches no other seed. -/
theorem seeds_apart (id : ObjectID) :
    matchesFilter frankenstein { theVortex with ID := id } = false ∧
    matchesFilter theBlackCat { theVortex with ID := id } = false ∧
    matchesFilter theVortex { frankenstein with ID := id } = false ∧
    matchesFilter theBlackCat { frankenstein with ID := id } = false ∧
    matchesFilter theVortex { theBlackCat with ID := id } = false ∧
    matchesFilter frankenstein { theBlackCat with ID := id } = false := by
  simp [matchesFilter, theVortex, frankenstein, theBlackCat]

theorem prepareData_unfold (env : Nat → Env) (coll : Collection) :
    prepareData env coll
      = match prepareData.step (env 0) coll theVortex with
        | .error err => .error err
        | .ok c1 =>
          match prepareData.step (env 1) c1 frankenstein with
          | .error err => .error err
          | .ok c2 =>
            match prepareData.step (env 2) c2 theBlackCat with
            | .error err => .error err
            | .ok c3 => .ok c3 := by
  simp only [prepareData, startData, prepareData.loop]

/-- After a run of `prepareData` that did not end the process every seed has
exactly one match. -/
theorem prepareData_counts (env : Nat → Env) (coll coll1 : Collection)
    (h : prepareData env coll = .ok coll1) :
    matchCount theVortex coll1.docs = 1 ∧ matchCount frankenstein coll1.docs = 1
      ∧ matchCount theBlackCat coll1.docs = 1 := by
  rw [prepareData_unfold] at h
  cases h1 : prepareData.step (env 0) coll theVortex with
  | error e => simp [h1] at h
  | ok c1 =>
    cases h2 : prepareData.step (env 1) c1 frankenstein with
    | error e => simp [h1, h2] at h
    | ok c2 =>
      cases h3 : prepareData.step (env 2) c2 theBlackCat with
      | error e => simp [h1, h2, h3] at h
      | ok c3 =>
        simp only [h1, h2, h3, Except.ok.injEq] at h
        subst h
        obtain ⟨a1, -⟩ := step_ok _ _ _ _ seeds_zero.1 h1
        obtain ⟨b2, b⟩ := step_ok _ _ _ _ seeds_zero.2.1 h2
        obtain ⟨c3, c⟩ := step_ok _ _ _ _ seeds_zero.2.2 h3
        have ap2 := seeds_apart (env 1).newID
        have ap3 := seeds_apart (env 2).newID
        refine ⟨?_, ?_, c3⟩
        · rw [c _ ap3.2.2.2.2.1, b _ ap2.2.2.1, a1]
        · rw [c _ ap3.2.2.2.2.2, b2]

/-- A run of `prepareData` on a collection in which every seed has exactly one
match performs three finds if no find fails, and ends the process
otherwise. -/
theorem prepareData_of_counts (env : Nat → Env) (coll : Collection)
    (h1 : matchCount theVortex coll.docs = 1) (h2 : matchCount frankenstein coll.docs = 1)
    (h3 : matchCount theBlackCat coll.docs = 1) :
    prepareData env coll
      = match (env 0).findFault, (env 1).findFault, (env 2).findFault with
        | none, none, none => .ok ⟨coll.docs, coll.calls ++ [.Find, .Find, .Find]⟩
        | some e, _, _ => .error e
        | none, some e, _ => .error e
        | none, none, some e => .error e := by
  rw [prepareData_unfold, step_of_one _ _ _ h1]
  cases (env 0).findFault with
  | some e => rfl
  | none =>
    simp only []
    rw [step_of_one _ _ _ (show matchCount frankenstein (coll.record .Find).docs = 1 from h2)]
    cases (env 1).findFault with
    | some e => rfl
    | none =>
      simp only []
      rw [step_of_one _ _ _
        (show matchCount theBlackCat ((coll.record .Find).record .Find).docs = 1 from h3)]
      cases (env 2).findFault with
      | some e => rfl
      | none => simp [Collection.record]

/-- C11: with find as the exact match on name, author, isbn, pages and year,
after a run of `prepareData` that did not end the process the collection holds
exactly one match of each seed record; a second run that does not end the
process leaves the records as they are and performs the three finds and no
insert, and a second run in which no find fails does not end the process. -/
theorem prepareData_seeds_once (env : Nat → Env) (coll coll1 : Collection)
    (h : prepareData env coll = .ok coll1) :
    (∀ seed ∈ startData, matchCount seed coll1.docs = 1) ∧
    (∀ (env2 : Nat → Env) (coll2 : Collection), prepareData env2 coll1 = .ok coll2 →
      coll2.docs = coll1.docs ∧ coll2.calls = coll1.calls ++ [.Find, .Find, .Find]) ∧
    (∀ env2 : Nat → Env, (env2 0).findFault = none → (env2 1).findFault = none →
      (env2 2).findFault = none →
      prepareData env2 coll1 = .ok ⟨coll1.docs, coll1.calls ++ [.Find, .Find, .Find]⟩) := by
  obtain ⟨h1, h2, h3⟩ := prepareData_counts env coll coll1 h
  refine ⟨?_, ?_, ?_⟩
  · intro seed hs
    simp only [startData, List.mem_cons, List.mem_singleton, List.not_mem_nil, or_false] at hs
    rcases hs with rfl | rfl | rfl
    · exact h1
    · exact h2
    · exact h3
  · intro env2 coll2 hrun
    rw [prepareData_of_counts env2 coll1 h1 h2 h3] at hrun
    cases f0 : (env2 0).findFault with
    | some e => simp [f0] at hrun
    | none =>
      cases f1 : (env2 1).findFault with
      | some e => simp [f0, f1] at hrun
      | none =>
        cases f2 : (env2 2).findFault with
        | some e => simp [f0, f1, f2] at hrun
        | none =>
          simp only [f0, f1, f2, Except.ok.injEq] at hrun
          subst hrun
          exact ⟨rfl, rfl⟩
  · intro env2 f0 f1 f2
    rw [prepareData_of_counts env2 coll1 h1 h2 h3, f0, f1, f2]

/-- C11 on `halfSeeded`, which holds the second seed already: the run inserts
the two others, and a second run changes nothing. -/
theorem prepareData_seeds_once_witness :
    prepareData calmEnv halfSeeded = .ok seeded ∧
    (∀ seed ∈ startData, matchCount seed seeded.docs = 1) ∧
    prepareData calmEnv seeded = .ok ⟨seeded.docs, seeded.calls ++ [.Find, .Find, .Find]⟩ :=
  have h := prepareData_seeds_once calmEnv halfSeeded seeded (by decide)
  ⟨by decide, h.1, h.2.2 calmEnv rfl rfl rfl⟩

/-! ## The views -/

/-- C12: on the collection `twoEditions`, in which two records share the author
"Herbert" and the year 1965, `findAllAuthors` and `findAllYears` return one
entry per record: the shared author and the shared year are listed twice. -/
theorem findAllAuthors_findAllYears_repeat :
    findAllAuthors (twoEditions.Find none).1 = (["Herbert", "Herbert", "Austen"], none) ∧
    findAllYears (twoEditions.Find none).1 = .ok [1965, 1965, 1815] ∧
    ¬ (findAllAuthors (twoEditions.Find none).1).1.Nodup := by
  decide

/-! ## Identifiers and answers of the update handler -/

theorem updateFields_no_id (req : BookStore) (id : ObjectID) :
    (updateFields req).any (fun e => e.1 == "_id" && e.2 != .oid id) = false := by
  by_cases h1 : req.BookName = "" <;> by_cases h2 : req.BookAuthor = "" <;>
  by_cases h3 : req.BookISBN = "" <;> by_cases h4 : req.BookPages = 0 <;>
  by_cases h5 : req.BookYear = 0 <;>
  simp [updateFields, M.set, h1, h2, h3, h4, h5]

/-- C13: the field set of `updateBookRequest` never has the key `_id`, and for
every request, parsed or not, every outcome of the store call and every
collection, the identifiers of the records are the same after the handler as
before, record by record. -/
theorem updateBookRequest_keeps_identifiers (bound : Except Error BookStore)
    (fault : Option Error) (coll : Collection) :
    (∀ req : BookStore, M.get (updateFields req) "_id" = none ∧
      "_id" ∉ (updateFields req).map Prod.fst) ∧
    (updateBookRequest bound fault coll).2.docs.map (fun b => b.ID)
      = coll.docs.map (fun b => b.ID) := by
  constructor
  · intro req
    obtain ⟨-, -, -, -, -, hkeys, -⟩ := updateFields_get req
    have hnot : "_id" ∉ (updateFields req).map Prod.fst := by
      intro hmem
      have := hkeys _ hmem
      revert this
      decide
    refine ⟨?_, hnot⟩
    unfold M.get
    rw [List.lookup_eq_none_iff]
    intro e he
    simp only [bne_iff_ne, ne_eq]
    intro hk
    exact hnot (List.mem_map.mpr ⟨e, he, hk.symm⟩)
  · cases bound with
    | error e => rfl
    | ok req =>
      by_cases hid : req.ID.IsZero = false
      · rw [updateBookRequest_snd req fault coll hid]
        rcases UpdateOne_docs coll fault req.ID (updateFields req) with h | h
        · rw [h]
        · rw [h]
          exact updateFirst_map_eq _ _ _ (fun b => applySet_ID _ b) _
      · simp at hid
        simp [updateBookRequest, hid]

/-- C14: for a parsed update request with a non-zero identifier, whenever the
store call returns a matched count, 0 or 1, the answer is 200 with the message
"Book updated successfully"; the answer is 500 exactly when the store call
returns an error; and without a fault the store call returns the matched
count, 1 if a record has the identifier and 0 if none has. -/
theorem updateBookRequest_answer (req : BookStore) (fault : Option Error) (coll : Collection)
    (hid : req.ID.IsZero = false) :
    (∀ n : Nat, (coll.UpdateOne fault req.ID (updateFields req)).1 = .ok n →
      (updateBookRequest (.ok req) fault coll).1
        = ⟨StatusOK, .object [("message", "Book updated successfully")]⟩) ∧
    ((updateBookRequest (.ok req) fault coll).1.status = StatusInternalServerError ↔
      ∃ e, (coll.UpdateOne fault req.ID (updateFields req)).1 = .error e) ∧
    (fault = none → (coll.UpdateOne fault req.ID (updateFields req)).1
      = .ok (if coll.docs.any (fun b => b.ID == req.ID) then 1 else 0)) := by
  refine ⟨?_, ?_, ?_⟩
  · intro n hn
    simp only [updateBookRequest, hid]
    revert hn
    generalize coll.UpdateOne fault req.ID (updateFields req) = r
    rcases r with ⟨_ | _, c⟩
    · intro hn; cases hn
    · intro _; rfl
  · simp only [updateBookRequest, hid]
    generalize coll.UpdateOne fault req.ID (updateFields req) = r
    rcases r with ⟨_ | _, c⟩
    · simp
    · simp [StatusOK, StatusInternalServerError]
  · intro hf
    subst hf
    simp only [Collection.UpdateOne, updateFields_no_id]
    split_ifs
    · contradiction
    · rfl
    · rfl

/-- C14 at `putUnknown`, whose identifier no record of `shelf` carries, and at
`putYear`, which matches `dune`: the same answer. -/
theorem updateBookRequest_answer_witness :
    (shelf.UpdateOne none putUnknown.ID (updateFields putUnknown)).1 = .ok 0 ∧
    (shelf.UpdateOne none putYear.ID (updateFields putYear)).1 = .ok 1 ∧
    (updateBookRequest (.ok putUnknown) none shelf).1
      = ⟨200, .object [("message", "Book updated successfully")]⟩ ∧
    (updateBookRequest (.ok putYear) none shelf).1
      = ⟨200, .object [("message", "Book updated successfully")]⟩ :=
  ⟨by decide, by decide,
    (updateBookRequest_answer putUnknown none shelf (by decide)).1 0 (by decide),
    (updateBookRequest_answer putYear none shelf (by decide)).1 1 (by decide)⟩

/-! ## Error bodies -/

/-- C15 as stated fails for the list route: when the find fails the answer to
GET /api/books has status 500 and a body that is not an object with the
single key "error", it has the key "message". -/
theorem serveListBooks_error_body :
    (serveListBooks (some "no reachable servers") shelf).1
      = ⟨500, .object [("message", "Internal Server Error")]⟩ ∧
    isErrorBody (serveListBooks (some "no reachable servers") shelf).1.body = false ∧
    hasErrorKey (serveListBooks (some "no reachable servers") shelf).1.body = false := by
  decide

/-- C15 amended: every response of the update, delete and create handlers has
either status 200 and no key "error", or one of the statuses 400, 404, 500 and
a body that is an object with the single key "error"; the answer to
GET /api/books has either status 200 and no key "error", or it is the
framework's answer to the returned error, 500 with the single key
"message". -/
theorem handlers_error_bodies :
    (∀ (bound : Except Error BookStore) (fault : Option Error) (coll : Collection),
      ((updateBookRequest bound fault coll).1.status = 200
          ∧ hasErrorKey (updateBookRequest bound fault coll).1.body = false) ∨
      (((updateBookRequest bound fault coll).1.status = 400
          ∨ (updateBookRequest bound fault coll).1.status = 500)
          ∧ isErrorBody (updateBookRequest bound fault coll).1.body = true)) ∧
    (∀ (id : String) (fault : Option Error) (coll : Collection),
      ((deleteBookRequest id fault coll).1.status = 200
          ∧ hasErrorKey (deleteBookRequest id fault coll).1.body = false) ∨
      (((deleteBookRequest id fault coll).1.status = 400
          ∨ (deleteBookRequest id fault coll).1.status = 404
          ∨ (deleteBookRequest id fault coll).1.status = 500)
          ∧ isErrorBody (deleteBookRequest id fault coll).1.body = true)) ∧
    (∀ (bound : Except Error BookRequest) (fault : Option Error) (newID : ObjectID)
        (coll : Collection),
      ((createBookRequest bound fault newID coll).1.status = 200
          ∧ hasErrorKey (createBookRequest bound fault newID coll).1.body = false) ∨
      (((createBookRequest bound fault newID coll).1.status = 400
          ∨ (createBookRequest bound fault newID coll).1.status = 500)
          ∧ isErrorBody (createBookRequest bound fault newID coll).1.body = true)) ∧
    (∀ (fault : Option Error) (coll : Collection),
      ((serveListBooks fault coll).1.status = 200
          ∧ hasErrorKey (serveListBooks fault coll).1.body = false) ∨
      (serveListBooks fault coll).1
        = ⟨500, .object [("message", "Internal Server Error")]⟩) := by
  refine ⟨?_, ?_, ?_, ?_⟩
  · intro bound fault coll
    cases bound with
    | error e => right; exact ⟨Or.inl rfl, rfl⟩
    | ok req =>
      by_cases hid : req.ID.IsZero = true
      · right
        simp [updateBookRequest, hid, StatusBadRequest, isErrorBody]
      · simp only [Bool.not_eq_true] at hid
        simp only [updateBookRequest, hid]
        generalize coll.UpdateOne fault req.ID (updateFields req) = r
        rcases r with ⟨_ | _, c⟩
        · right; exact ⟨Or.inr rfl, rfl⟩
        · left; exact ⟨rfl, rfl⟩
  · intro id fault coll
    unfold deleteBookRequest
    cases ObjectIDFromHex id with
    | error e => right; exact ⟨Or.inl rfl, rfl⟩
    | ok objID =>
      simp only []
      generalize coll.DeleteOne fault objID = r
      rcases r with ⟨_ | n, c⟩
      · right; exact ⟨Or.inr (Or.inr rfl), rfl⟩
      · simp only []
        by_cases hn : n = 0
        · right; simp [hn, StatusNotFound, isErrorBody]
        · left; simp [hn, StatusOK, hasErrorKey]
  · intro bound fault newID coll
    cases bound with
    | error e => right; exact ⟨Or.inl rfl, rfl⟩
    | ok req =>
      simp only [createBookRequest]
      generalize coll.InsertOne fault newID (createBookRequest.book req) = r
      rcases r with ⟨_ | _, c⟩
      · right; exact ⟨Or.inr rfl, rfl⟩
      · left; exact ⟨rfl, rfl⟩
  · intro fault coll
    cases fault with
    | some e => right; rfl
    | none =>
      left
      simp [serveListBooks, listBooks, findAllBooksAPI_Find, StatusOK, hasErrorKey]

end Books
